import Mathlib

/-!
Shallow embedding of `services/surfaceflinger/Scheduler/VSyncPredictor.cpp`
(AOSP 14, RMX2020 branch of platform/frameworks/native) together with proofs
about the embedded operations.

Modelling conventions:
* `nsecs_t` (signed 64-bit) is modelled as `Int`; the C++ `/` and `%` on
  signed integers truncate toward zero, so they are modelled with `Int.tdiv`
  and `Int.tmod`.  Signed overflow is undefined behaviour in C++ and is not
  modelled (all arithmetic is exact).
* `mRateMap` is declared in `VSyncPredictor.h`, which is not part of the
  sources under scrutiny; per the specification it is a capacity-bounded
  mapping whose eviction (`mRateMap.erase(mRateMap.begin())`) removes the
  insertion-oldest entry.  It is therefore modelled from the spec as an
  association list in insertion order, head = insertion-oldest entry.
* `mLastTimestampIndex` is the ring-buffer write index (a `size_t` in the
  header); it is modelled as `Nat`, which makes the `mLastTimestampIndex < 0`
  half of the guard in `validate` vacuous, exactly as for `size_t`.
* The `LOG_ALWAYS_FATAL_IF(prediction < timePoint, ...)` abort and the
  (invariant-guarded, see `RateMapInv`) dereference of a failed
  `mRateMap.find(mIdealPeriod)` are modelled by an `Option` result of the
  prediction function: `none` means the process aborts / undefined behaviour.
-/

namespace VSyncPredictor

/-- A fitted model as stored in the rate map: `slope` is the estimated vsync
period and `intercept` the offset, both in nanoseconds. -/
structure Model where
  slope : Int
  intercept : Int
deriving DecidableEq, Repr

/-- The rate map, modelled from the spec as an insertion-ordered association
list from nominal (ideal) period to fitted model; the head is the
insertion-oldest entry. -/
abbrev RateMap := List (Int × Model)

/-- Lookup in the rate map (`mRateMap.find(k)`). -/
def rateMapFind : RateMap → Int → Option Model
  | [], _ => none
  | e :: m, k => if e.1 = k then some e.2 else rateMapFind m k

/-- Store a model in the rate map: update in place when the key is present
(`it->second = v` / `mRateMap[k] = v` on a present key), append a new entry
otherwise (`mRateMap[k] = v` on an absent key). -/
def rateMapSet : RateMap → Int → Model → RateMap
  | [], k, v => [(k, v)]
  | e :: m, k, v => if e.1 = k then (k, v) :: m else e :: rateMapSet m k v

/-- The capacity bound `kSizeLimit` of the rate map in `setPeriod`. -/
def kSizeLimit : Nat := 30

/-- The fixed-point scaling factor used by the regression. -/
def kScalingFactor : Int := 1000

/-- The whole mutable state of a `VSyncPredictor` instance, restricted to the
fields the modelled operations read or write.  (`mLastVsyncSequence` and
`mRenderRate`, used only by the phase-alignment layer, are omitted.) -/
structure VSyncState where
  kHistorySize : Nat
  kMinimumSamplesForPrediction : Nat
  kOutlierTolerancePercent : Nat
  mIdealPeriod : Int
  mTimestamps : List Int
  mLastTimestampIndex : Nat
  mKnownTimestamp : Option Int
  mRateMap : RateMap
deriving DecidableEq, Repr

/-- Maximum of a timestamp list (`*std::max_element(...)`); `0` on the empty
list, on which the C++ call would be invalid and is never made. -/
def maxTS : List Int → Int
  | [] => 0
  | t :: ts => ts.foldl max t

/-- Minimum of a timestamp list (`*std::min_element(...)`); `0` on the empty
list, on which the C++ call would be invalid and is never made. -/
def minTS : List Int → Int
  | [] => 0
  | t :: ts => ts.foldl min t

/-- `VSyncPredictor::clearTimestamps`: when the buffer is non-empty, fold its
maximum into `mKnownTimestamp`, then clear the buffer and reset the write
index. -/
def clearTimestamps (s : VSyncState) : VSyncState :=
  if s.mTimestamps.isEmpty then s
  else
    let maxRb := maxTS s.mTimestamps
    let known := match s.mKnownTimestamp with
      | some k => max k maxRb
      | none => maxRb
    { s with mKnownTimestamp := some known, mTimestamps := [], mLastTimestampIndex := 0 }

/-- The first (period-residual) rejection test of `VSyncPredictor::validate`:
`percent = (timestamp - mTimestamps[mLastTimestampIndex]) % mIdealPeriod *
kMaxPercent / mIdealPeriod`, rejected when `percent` lies in the closed band
`[kOutlierTolerancePercent, kMaxPercent - kOutlierTolerancePercent]`. -/
def residualReject (s : VSyncState) (timestamp : Int) : Bool :=
  let aValidTimestamp := s.mTimestamps.getD s.mLastTimestampIndex 0
  let percent :=
    ((timestamp - aValidTimestamp).tmod s.mIdealPeriod * 100).tdiv s.mIdealPeriod
  decide ((s.kOutlierTolerancePercent : Int) ≤ percent ∧
    percent ≤ 100 - (s.kOutlierTolerancePercent : Int))

/-- The nearest buffered timestamp to `timestamp`
(`std::min_element` with the distance comparator, returning the first
minimizer). `0` on the empty list, on which the C++ call is never made. -/
def nearestTo (timestamp : Int) : List Int → Int
  | [] => 0
  | t :: ts =>
    ts.foldl (fun best x => if |timestamp - x| < |timestamp - best| then x else best) t

/-- The second (duplicate) rejection test of `VSyncPredictor::validate`:
the distance to the nearest buffered timestamp, as a truncated percentage of
the ideal period, is below the tolerance. -/
def duplicateReject (s : VSyncState) (timestamp : Int) : Bool :=
  let nearest := nearestTo timestamp s.mTimestamps
  let distancePercent := (|nearest - timestamp| * 100).tdiv s.mIdealPeriod
  decide (distancePercent < (s.kOutlierTolerancePercent : Int))

/-- `VSyncPredictor::validate`.  The C++ guard is
`mLastTimestampIndex < 0 || mTimestamps.empty()`; with the write index
modelled as `Nat` (it is a `size_t`) the first disjunct is vacuous. -/
def validate (s : VSyncState) (timestamp : Int) : Bool :=
  if s.mTimestamps.isEmpty then true
  else if residualReject s timestamp then false
  else if duplicateReject s timestamp then false
  else true

/-- The ring-buffer insertion step of `VSyncPredictor::addVsyncTimestamp` for
a validated sample: append while the vector is not at `kHistorySize`, else
advance the write index modulo the size and overwrite that slot. -/
def insertTimestamp (s : VSyncState) (timestamp : Int) : VSyncState :=
  if s.mTimestamps.length ≠ s.kHistorySize then
    let ts := s.mTimestamps ++ [timestamp]
    { s with mTimestamps := ts, mLastTimestampIndex := (s.mLastTimestampIndex + 1) % ts.length }
  else
    let idx := (s.mLastTimestampIndex + 1) % s.mTimestamps.length
    { s with mTimestamps := s.mTimestamps.set idx timestamp, mLastTimestampIndex := idx }

/-- The snapped ordinal of a normalized timestamp:
`(vsyncTS + currentPeriod / 2) / currentPeriod * kScalingFactor`, or `0` when
`currentPeriod == 0`. -/
def ordinalOf (currentPeriod t : Int) : Int :=
  if currentPeriod = 0 then 0
  else (t + currentPeriod.tdiv 2).tdiv currentPeriod * kScalingFactor

/-- The quantities computed by the least-squares fit in
`VSyncPredictor::addVsyncTimestamp`. -/
structure Fit where
  bottom : Int
  anticipatedPeriod : Int
  intercept : Int
deriving DecidableEq, Repr

/-- The least-squares fit of `VSyncPredictor::addVsyncTimestamp`: timestamps
are normalized to the oldest one, bucketed into ordinals snapped with the
current slope, both sequences are centered on their (truncated) means, and
`bottom`, `anticipatedPeriod` and `intercept` are computed as in the source.
(The sums being divided by `numSamples` are nonnegative in every reachable
state, so the C++ `int64 / size_t` divisions coincide with `Int.tdiv`.) -/
def regress (ts : List Int) (currentPeriod : Int) : Fit :=
  let n : Int := ts.length
  let oldestTS := minTS ts
  let vsyncTS := ts.map (fun t => t - oldestTS)
  let ordinals := vsyncTS.map (ordinalOf currentPeriod)
  let meanTS := vsyncTS.sum.tdiv n
  let meanOrdinal := ordinals.sum.tdiv n
  let v := vsyncTS.map (fun t => t - meanTS)
  let o := ordinals.map (fun t => t - meanOrdinal)
  let top := ((v.zip o).map (fun p => p.1 * p.2)).sum
  let bottom := (o.map (fun t => t * t)).sum
  let anticipatedPeriod := (top * kScalingFactor).tdiv bottom
  let intercept := meanTS - (anticipatedPeriod * meanOrdinal).tdiv kScalingFactor
  ⟨bottom, anticipatedPeriod, intercept⟩

/-- The slope the fit reads back from the rate map
(`mRateMap.find(mIdealPeriod)->second.slope`).  The entry is always present
in a reachable state (`RateMapInv`); the impossible absent case is given the
trivial model. -/
def currentPeriodOf (s : VSyncState) : Int :=
  ((rateMapFind s.mRateMap s.mIdealPeriod).getD ⟨s.mIdealPeriod, 0⟩).slope

/-- The fit computed from a state's buffered timestamps and its current
model slope. -/
def fitOf (s : VSyncState) : Fit := regress s.mTimestamps (currentPeriodOf s)

/-- `percent = std::abs(anticipatedPeriod - mIdealPeriod) * kMaxPercent /
mIdealPeriod`, the divergence test value of the fit. -/
def divergencePercent (idealPeriod anticipatedPeriod : Int) : Int :=
  (|anticipatedPeriod - idealPeriod| * 100).tdiv idealPeriod

/-- `VSyncPredictor::addVsyncTimestamp`, returning the boolean result paired
with the successor state. -/
def addVsyncTimestamp (s : VSyncState) (timestamp : Int) : Bool × VSyncState :=
  if validate s timestamp = false then
    if s.mTimestamps.length < s.kMinimumSamplesForPrediction then
      (false, clearTimestamps { s with mTimestamps := s.mTimestamps ++ [timestamp] })
    else if s.mTimestamps.isEmpty = false then
      (false, { s with mKnownTimestamp := some (max timestamp (maxTS s.mTimestamps)) })
    else
      (false, { s with mKnownTimestamp := some timestamp })
  else
    let s1 := insertTimestamp s timestamp
    if s1.mTimestamps.length < s1.kMinimumSamplesForPrediction then
      (true, { s1 with mRateMap := rateMapSet s1.mRateMap s1.mIdealPeriod ⟨s1.mIdealPeriod, 0⟩ })
    else
      let fit := fitOf s1
      if fit.bottom = 0 then
        (false, clearTimestamps
          { s1 with mRateMap := rateMapSet s1.mRateMap s1.mIdealPeriod ⟨s1.mIdealPeriod, 0⟩ })
      else if (s1.kOutlierTolerancePercent : Int) ≤
          divergencePercent s1.mIdealPeriod fit.anticipatedPeriod then
        (false, clearTimestamps
          { s1 with mRateMap := rateMapSet s1.mRateMap s1.mIdealPeriod ⟨s1.mIdealPeriod, 0⟩ })
      else
        (true,
          { s1 with
            mRateMap :=
              rateMapSet s1.mRateMap s1.mIdealPeriod ⟨fit.anticipatedPeriod, fit.intercept⟩ })

/-- `VSyncPredictor::nextAnticipatedVSyncTimeFromLocked`.  `none` models the
two non-returning outcomes: the (invariant-impossible) failed
`mRateMap.find(mIdealPeriod)` dereference and the
`LOG_ALWAYS_FATAL_IF(prediction < timePoint, ...)` abort. -/
def nextAnticipatedVSyncTimeFromLocked (s : VSyncState) (timePoint : Int) : Option Int :=
  match rateMapFind s.mRateMap s.mIdealPeriod with
  | none => none
  | some model =>
    if s.mTimestamps.isEmpty then
      let knownTimestamp := s.mKnownTimestamp.getD timePoint
      let numPeriodsOut := ((timePoint - knownTimestamp).tdiv s.mIdealPeriod) + 1
      some (knownTimestamp + numPeriodsOut * s.mIdealPeriod)
    else
      let oldest := minTS s.mTimestamps
      let zeroPoint := oldest + model.intercept
      let ordinalRequest := (timePoint - zeroPoint + model.slope).tdiv model.slope
      let prediction := ordinalRequest * model.slope + model.intercept + oldest
      if prediction < timePoint then none
      else some prediction

/-- `VSyncPredictor::setPeriod`: evict the insertion-oldest rate-map entry
when the map is at `kSizeLimit`, switch the active ideal period, create a
trivial entry for it when absent, then clear the timestamp history. -/
def setPeriod (s : VSyncState) (period : Int) : VSyncState :=
  let rm0 := if s.mRateMap.length = kSizeLimit then s.mRateMap.tail else s.mRateMap
  let rm1 := if (rateMapFind rm0 period).isSome then rm0
    else rm0 ++ [(period, ⟨period, 0⟩)]
  clearTimestamps { s with mIdealPeriod := period, mRateMap := rm1 }

/-- `VSyncPredictor::resetModel`: trivial model for the active ideal period,
then clear the timestamp history. -/
def resetModel (s : VSyncState) : VSyncState :=
  clearTimestamps
    { s with mRateMap := rateMapSet s.mRateMap s.mIdealPeriod ⟨s.mIdealPeriod, 0⟩ }

/-- The `VSyncPredictor` constructor: record the tuning constants (the
outlier tolerance capped at `kMaxPercent`), then `resetModel()`. -/
def construct (idealPeriod : Int) (historySize minimumSamples tolerance : Nat) : VSyncState :=
  resetModel
    { kHistorySize := historySize,
      kMinimumSamplesForPrediction := minimumSamples,
      kOutlierTolerancePercent := min tolerance 100,
      mIdealPeriod := idealPeriod,
      mTimestamps := [],
      mLastTimestampIndex := 0,
      mKnownTimestamp := none,
      mRateMap := [] }

/-- A sequence of `setPeriod` calls applied in order. -/
def applyPeriods (s : VSyncState) (ps : List Int) : VSyncState :=
  ps.foldl setPeriod s

/-- The rate-map invariant of the specification: at most `kSizeLimit`
entries, and an entry for the active ideal period exists. -/
def RateMapInv (s : VSyncState) : Prop :=
  s.mRateMap.length ≤ kSizeLimit ∧
    (rateMapFind s.mRateMap s.mIdealPeriod).isSome = true

instance (s : VSyncState) : Decidable (RateMapInv s) := by
  unfold RateMapInv; infer_instance

/-- Claim-side predicate, following the spec's words for the period-residual
test: the residual `(timestamp − lastAdmittedTimestamp) mod idealPeriod`,
expressed as a percentage of `idealPeriod`, lies strictly between
`outlierTolerancePercent` and `100 − outlierTolerancePercent`.  (The strict
bounds are stated multiplied out, `tol < 100·r/P < 100 − tol` becoming
`tol·P < 100·r ∧ 100·r < (100 − tol)·P`.) -/
def specResidualStrictlyBetween (s : VSyncState) (timestamp : Int) : Prop :=
  let aValidTimestamp := s.mTimestamps.getD s.mLastTimestampIndex 0
  let r := (timestamp - aValidTimestamp).tmod s.mIdealPeriod
  (s.kOutlierTolerancePercent : Int) * s.mIdealPeriod < r * 100 ∧
    r * 100 < (100 - (s.kOutlierTolerancePercent : Int)) * s.mIdealPeriod

instance (s : VSyncState) (t : Int) : Decidable (specResidualStrictlyBetween s t) := by
  unfold specResidualStrictlyBetween; infer_instance

/-- A converged warm-path state: 60 Hz-like ideal period 10, one buffered
timestamp 0, model slope 10 and intercept 0. -/
def exWarm : VSyncState :=
  { kHistorySize := 10,
    kMinimumSamplesForPrediction := 1,
    kOutlierTolerancePercent := 10,
    mIdealPeriod := 10,
    mTimestamps := [0],
    mLastTimestampIndex := 0,
    mKnownTimestamp := none,
    mRateMap := [(10, ⟨10, 0⟩)] }

/-- A converged state with ideal period 100 and a single admitted sample 0. -/
def exHundred : VSyncState :=
  { kHistorySize := 10,
    kMinimumSamplesForPrediction := 1,
    kOutlierTolerancePercent := 10,
    mIdealPeriod := 100,
    mTimestamps := [0],
    mLastTimestampIndex := 0,
    mKnownTimestamp := none,
    mRateMap := [(100, ⟨100, 0⟩)] }

/-- A state with outlier tolerance 0, ideal period 1000 and one admitted
sample 100. -/
def exZeroTol : VSyncState :=
  { kHistorySize := 10,
    kMinimumSamplesForPrediction := 1,
    kOutlierTolerancePercent := 0,
    mIdealPeriod := 1000,
    mTimestamps := [100],
    mLastTimestampIndex := 0,
    mKnownTimestamp := none,
    mRateMap := [(1000, ⟨1000, 0⟩)] }

/-! ## Helper lemmas -/

theorem le_foldl_max (l : List Int) (a : Int) : a ≤ l.foldl max a := by
  induction l generalizing a with
  | nil => exact le_refl a
  | cons x l ih => exact le_trans (le_max_left a x) (ih (max a x))

theorem mem_le_foldl_max (l : List Int) (a x : Int) (hx : x ∈ l) : x ≤ l.foldl max a := by
  induction l generalizing a with
  | nil => cases hx
  | cons y l ih =>
    rcases List.mem_cons.mp hx with h | h
    · subst h
      exact le_trans (le_max_right a x) (le_foldl_max l (max a x))
    · exact ih (max a y) h

theorem foldl_max_choice (l : List Int) (a : Int) : l.foldl max a = a ∨ l.foldl max a ∈ l := by
  induction l generalizing a with
  | nil => exact Or.inl rfl
  | cons x l ih =>
    rcases ih (max a x) with h | h
    · rcases max_choice a x with h2 | h2
      · exact Or.inl (by rw [List.foldl_cons, h, h2])
      · exact Or.inr (by rw [List.foldl_cons, h, h2]; exact List.mem_cons_self x l)
    · exact Or.inr (List.mem_cons_of_mem x h)

theorem le_maxTS (l : List Int) (x : Int) (hx : x ∈ l) : x ≤ maxTS l := by
  cases l with
  | nil => cases hx
  | cons y l =>
    rcases List.mem_cons.mp hx with h | h
    · subst h; exact le_foldl_max l x
    · exact mem_le_foldl_max l y x h

theorem maxTS_mem (l : List Int) (h : l ≠ []) : maxTS l ∈ l := by
  cases l with
  | nil => exact absurd rfl h
  | cons y l =>
    rcases foldl_max_choice l y with h2 | h2
    · rw [maxTS, h2]; exact List.mem_cons_self y l
    · exact List.mem_cons_of_mem y h2

theorem tdiv_nonpos_of_nonpos {a b : Int} (ha : a ≤ 0) (hb : 0 ≤ b) : a.tdiv b ≤ 0 := by
  have h1 : 0 ≤ (-a).tdiv b := Int.tdiv_nonneg (by omega) hb
  rw [Int.neg_tdiv] at h1
  omega

theorem tmod_nonpos_of_nonpos : ∀ (a : Int), a ≤ 0 → ∀ (b : Int), a.tmod b ≤ 0 := by
  intro a ha b
  cases a with
  | ofNat m =>
    have hm : m = 0 := by
      rw [Int.ofNat_eq_natCast] at ha
      omega
    subst hm
    rw [show Int.ofNat 0 = 0 from rfl, Int.zero_tmod]
  | negSucc m =>
    cases b with
    | ofNat n =>
      show -(Int.ofNat ((m + 1) % n)) ≤ 0
      rw [Int.ofNat_eq_natCast]
      omega
    | negSucc n =>
      show -(Int.ofNat ((m + 1) % (n + 1))) ≤ 0
      rw [Int.ofNat_eq_natCast]
      omega

theorem lt_tdiv_shift_mul {d s : Int} (hs : 0 < s) : d < ((d + s).tdiv s) * s := by
  by_cases h : 0 ≤ d + s
  · rw [Int.tdiv_eq_ediv h hs.le]
    have h1 := Int.lt_ediv_add_one_mul_self (d + s) hs
    have h2 : ((d + s) / s + 1) * s = (d + s) / s * s + s := by ring
    omega
  · push_neg at h
    have e1 : (d + s).tdiv s = -((-(d + s)).tdiv s) := by
      rw [Int.neg_tdiv]; omega
    have h2 : (0 : Int) ≤ -(d + s) := by omega
    rw [e1, Int.tdiv_eq_ediv h2 hs.le]
    have h3 := Int.ediv_mul_le (-(d + s)) (ne_of_gt hs)
    have h4 : -(-(d + s) / s) * s = -(-(d + s) / s * s) := by ring
    omega

theorem clearTimestamps_mTimestamps (s : VSyncState) :
    (clearTimestamps s).mTimestamps = [] := by
  unfold clearTimestamps
  split
  · next h => exact List.isEmpty_iff.mp h
  · rfl

theorem clearTimestamps_mRateMap (s : VSyncState) :
    (clearTimestamps s).mRateMap = s.mRateMap := by
  unfold clearTimestamps; split <;> rfl

theorem clearTimestamps_mIdealPeriod (s : VSyncState) :
    (clearTimestamps s).mIdealPeriod = s.mIdealPeriod := by
  unfold clearTimestamps; split <;> rfl

theorem clearTimestamps_mKnownTimestamp_of_ne (s : VSyncState) (h : s.mTimestamps ≠ []) :
    (clearTimestamps s).mKnownTimestamp =
      some (match s.mKnownTimestamp with
        | some k => max k (maxTS s.mTimestamps)
        | none => maxTS s.mTimestamps) := by
  unfold clearTimestamps
  split
  · next h2 => exact absurd (List.isEmpty_iff.mp h2) h
  · rfl

theorem insertTimestamp_mRateMap (s : VSyncState) (t : Int) :
    (insertTimestamp s t).mRateMap = s.mRateMap := by
  unfold insertTimestamp; split <;> rfl

theorem insertTimestamp_mIdealPeriod (s : VSyncState) (t : Int) :
    (insertTimestamp s t).mIdealPeriod = s.mIdealPeriod := by
  unfold insertTimestamp; split <;> rfl

theorem insertTimestamp_kMinimum (s : VSyncState) (t : Int) :
    (insertTimestamp s t).kMinimumSamplesForPrediction = s.kMinimumSamplesForPrediction := by
  unfold insertTimestamp; split <;> rfl

theorem insertTimestamp_kTolerance (s : VSyncState) (t : Int) :
    (insertTimestamp s t).kOutlierTolerancePercent = s.kOutlierTolerancePercent := by
  unfold insertTimestamp; split <;> rfl

theorem validate_of_isEmpty (s : VSyncState) (t : Int) (h : s.mTimestamps.isEmpty = true) :
    validate s t = true := by
  unfold validate; rw [h]; rfl

theorem rateMapFind_set_self (m : RateMap) (k : Int) (v : Model) :
    rateMapFind (rateMapSet m k v) k = some v := by
  induction m with
  | nil => simp [rateMapSet, rateMapFind]
  | cons e m ih =>
    by_cases h : e.1 = k
    · simp [rateMapSet, rateMapFind, h]
    · simp [rateMapSet, rateMapFind, h, ih]

theorem rateMapSet_length (m : RateMap) (k : Int) (v : Model)
    (h : (rateMapFind m k).isSome = true) :
    (rateMapSet m k v).length = m.length := by
  induction m with
  | nil => simp [rateMapFind] at h
  | cons e m ih =>
    by_cases he : e.1 = k
    · simp [rateMapSet, he]
    · rw [rateMapFind, if_neg he] at h
      simp [rateMapSet, he, ih h]

theorem rateMapFind_eq_none_iff (m : RateMap) (k : Int) :
    rateMapFind m k = none ↔ k ∉ m.map Prod.fst := by
  induction m with
  | nil => simp [rateMapFind]
  | cons e m ih =>
    by_cases h : e.1 = k
    · simp [rateMapFind, h]
    · rw [rateMapFind, if_neg h, ih, List.map_cons]
      simp only [List.mem_cons, not_or]
      exact ⟨fun hk => ⟨fun he => h he.symm, hk⟩, fun hk => hk.2⟩

theorem rateMapFind_append_of_none (l1 l2 : RateMap) (k : Int)
    (h : rateMapFind l1 k = none) :
    rateMapFind (l1 ++ l2) k = rateMapFind l2 k := by
  induction l1 with
  | nil => rfl
  | cons e l1 ih =>
    by_cases he : e.1 = k
    · rw [rateMapFind, if_pos he] at h; cases h
    · rw [rateMapFind, if_neg he] at h
      rw [List.cons_append, rateMapFind, if_neg he, ih h]

/-! ## Claim theorems -/

/-- C5: in a state with at least `kMinimumSamplesForPrediction` buffered
samples, a rejected sample makes `addVsyncTimestamp` return `false`, leaves
the timestamp buffer and the rate map (hence the fitted model of the active
period) unchanged, and sets `mKnownTimestamp` to the maximum of the rejected
timestamp and all buffered timestamps (the final two conjuncts state that
`max ts (maxTS ...)` is an upper bound attained on `ts` or in the buffer). -/
theorem addVsyncTimestamp_rejected_converged (s : VSyncState) (ts : Int)
    (hmin : s.kMinimumSamplesForPrediction ≤ s.mTimestamps.length)
    (hrej : validate s ts = false) :
    (addVsyncTimestamp s ts).1 = false ∧
    (addVsyncTimestamp s ts).2.mTimestamps = s.mTimestamps ∧
    (addVsyncTimestamp s ts).2.mRateMap = s.mRateMap ∧
    (addVsyncTimestamp s ts).2.mKnownTimestamp = some (max ts (maxTS s.mTimestamps)) ∧
    (∀ x ∈ s.mTimestamps, x ≤ max ts (maxTS s.mTimestamps)) ∧
    (max ts (maxTS s.mTimestamps) = ts ∨ max ts (maxTS s.mTimestamps) ∈ s.mTimestamps) := by
  have hne : s.mTimestamps.isEmpty = false := by
    cases h : s.mTimestamps.isEmpty
    · rfl
    · rw [validate_of_isEmpty s ts h] at hrej; cases hrej
  have hlt : ¬ s.mTimestamps.length < s.kMinimumSamplesForPrediction := by omega
  have hne' : s.mTimestamps ≠ [] := List.isEmpty_eq_false.mp hne
  refine ⟨?_, ?_, ?_, ?_, ?_, ?_⟩
  · unfold addVsyncTimestamp; rw [hrej, if_pos rfl, if_neg hlt, hne, if_pos rfl]
  · unfold addVsyncTimestamp; rw [hrej, if_pos rfl, if_neg hlt, hne, if_pos rfl]
  · unfold addVsyncTimestamp; rw [hrej, if_pos rfl, if_neg hlt, hne, if_pos rfl]
  · unfold addVsyncTimestamp; rw [hrej, if_pos rfl, if_neg hlt, hne, if_pos rfl]
  · intro x hx
    exact le_trans (le_maxTS s.mTimestamps x hx) (le_max_right ts (maxTS s.mTimestamps))
  · rcases max_choice ts (maxTS s.mTimestamps) with h | h
    · exact Or.inl h
    · exact Or.inr (by rw [h]; exact maxTS_mem s.mTimestamps hne')

/-- Witness for C5: the converged state `exHundred` rejects the half-period
offset timestamp `150` and bumps the known timestamp to `150`. -/
theorem addVsyncTimestamp_rejected_converged_witness :
    (addVsyncTimestamp exHundred 150).1 = false ∧
    (addVsyncTimestamp exHundred 150).2.mTimestamps = exHundred.mTimestamps ∧
    (addVsyncTimestamp exHundred 150).2.mRateMap = exHundred.mRateMap ∧
    (addVsyncTimestamp exHundred 150).2.mKnownTimestamp =
      some (max 150 (maxTS exHundred.mTimestamps)) ∧
    (∀ x ∈ exHundred.mTimestamps, x ≤ max 150 (maxTS exHundred.mTimestamps)) ∧
    (max 150 (maxTS exHundred.mTimestamps) = 150 ∨
      max 150 (maxTS exHundred.mTimestamps) ∈ exHundred.mTimestamps) :=
  addVsyncTimestamp_rejected_converged exHundred 150 (by decide) (by decide)

/-- C7: a validated sample that leaves the buffer still below
`kMinimumSamplesForPrediction` makes `addVsyncTimestamp` store the trivial
model for the active ideal period and return `true`; the buffer is exactly
the ring-inserted one and the rate map is exactly the trivial-model store
(no regression output is written). -/
theorem addVsyncTimestamp_below_minimum (s : VSyncState) (ts : Int)
    (hv : validate s ts = true)
    (hlt : (insertTimestamp s ts).mTimestamps.length < s.kMinimumSamplesForPrediction) :
    (addVsyncTimestamp s ts).1 = true ∧
    (addVsyncTimestamp s ts).2.mTimestamps = (insertTimestamp s ts).mTimestamps ∧
    (addVsyncTimestamp s ts).2.mRateMap =
      rateMapSet s.mRateMap s.mIdealPeriod ⟨s.mIdealPeriod, 0⟩ ∧
    rateMapFind (addVsyncTimestamp s ts).2.mRateMap s.mIdealPeriod =
      some ⟨s.mIdealPeriod, 0⟩ := by
  have hv' : ¬ validate s ts = false := by rw [hv]; decide
  have hlt' : (insertTimestamp s ts).mTimestamps.length <
      (insertTimestamp s ts).kMinimumSamplesForPrediction := by
    rw [insertTimestamp_kMinimum]; exact hlt
  have hmap : (addVsyncTimestamp s ts).2.mRateMap =
      rateMapSet s.mRateMap s.mIdealPeriod ⟨s.mIdealPeriod, 0⟩ := by
    unfold addVsyncTimestamp
    rw [if_neg hv', if_pos hlt']
    simp only [insertTimestamp_mRateMap, insertTimestamp_mIdealPeriod]
  refine ⟨?_, ?_, hmap, ?_⟩
  · unfold addVsyncTimestamp; rw [if_neg hv', if_pos hlt']
  · unfold addVsyncTimestamp; rw [if_neg hv', if_pos hlt']
  · rw [hmap]; exact rateMapFind_set_self s.mRateMap s.mIdealPeriod ⟨s.mIdealPeriod, 0⟩

/-- Witness for C7: from a freshly constructed predictor (minimum 5 samples)
the first sample is accepted with the trivial model stored. -/
theorem addVsyncTimestamp_below_minimum_witness :
    (addVsyncTimestamp (construct 100 10 5 10) 7).1 = true ∧
    (addVsyncTimestamp (construct 100 10 5 10) 7).2.mTimestamps =
      (insertTimestamp (construct 100 10 5 10) 7).mTimestamps ∧
    (addVsyncTimestamp (construct 100 10 5 10) 7).2.mRateMap =
      rateMapSet (construct 100 10 5 10).mRateMap (construct 100 10 5 10).mIdealPeriod
        ⟨(construct 100 10 5 10).mIdealPeriod, 0⟩ ∧
    rateMapFind (addVsyncTimestamp (construct 100 10 5 10) 7).2.mRateMap
        (construct 100 10 5 10).mIdealPeriod =
      some ⟨(construct 100 10 5 10).mIdealPeriod, 0⟩ :=
  addVsyncTimestamp_below_minimum (construct 100 10 5 10) 7 (by decide) (by decide)

/-- C9: `setPeriod` empties the timestamp buffer, and when the buffer was
non-empty the known timestamp becomes the maximum of the previous known
timestamp (when present) and the buffered maximum (the final two conjuncts
state that `maxTS` is the buffered maximum). -/
theorem setPeriod_clears_history (s : VSyncState) (p : Int) :
    (setPeriod s p).mTimestamps = [] ∧
    (s.mTimestamps ≠ [] →
      (setPeriod s p).mKnownTimestamp =
        some (match s.mKnownTimestamp with
          | some k => max k (maxTS s.mTimestamps)
          | none => maxTS s.mTimestamps) ∧
      maxTS s.mTimestamps ∈ s.mTimestamps ∧
      ∀ x ∈ s.mTimestamps, x ≤ maxTS s.mTimestamps) := by
  constructor
  · exact clearTimestamps_mTimestamps _
  · intro hne
    refine ⟨?_, maxTS_mem s.mTimestamps hne, fun x hx => le_maxTS s.mTimestamps x hx⟩
    exact clearTimestamps_mKnownTimestamp_of_ne _ hne

/-- Witness for C9: switching `exHundred` (buffer `[0]`, no known timestamp)
to period 50 clears the buffer and records known timestamp `0`. -/
theorem setPeriod_clears_history_witness :
    (setPeriod exHundred 50).mTimestamps = [] ∧
    (exHundred.mTimestamps ≠ [] →
      (setPeriod exHundred 50).mKnownTimestamp =
        some (match exHundred.mKnownTimestamp with
          | some k => max k (maxTS exHundred.mTimestamps)
          | none => maxTS exHundred.mTimestamps) ∧
      maxTS exHundred.mTimestamps ∈ exHundred.mTimestamps ∧
      ∀ x ∈ exHundred.mTimestamps, x ≤ maxTS exHundred.mTimestamps) :=
  setPeriod_clears_history exHundred 50

theorem nextAnticipated_warm_eq (s : VSyncState) (t : Int) (m : Model)
    (hm : rateMapFind s.mRateMap s.mIdealPeriod = some m)
    (hne : s.mTimestamps.isEmpty = false) :
    nextAnticipatedVSyncTimeFromLocked s t =
      (if (t - (minTS s.mTimestamps + m.intercept) + m.slope).tdiv m.slope * m.slope
            + m.intercept + minTS s.mTimestamps < t then none
       else some ((t - (minTS s.mTimestamps + m.intercept) + m.slope).tdiv m.slope * m.slope
            + m.intercept + minTS s.mTimestamps)) := by
  unfold nextAnticipatedVSyncTimeFromLocked
  rw [hm, hne]
  rfl

/-- C1: on the warm path (non-empty buffer, positive slope, a model present
for the active period), the prediction is returned (no fatal branch, modelled
as `none`) and is never earlier than the requested time point. -/
theorem nextAnticipated_not_before_timePoint (s : VSyncState) (t : Int) (m : Model)
    (hne : s.mTimestamps ≠ []) (hm : rateMapFind s.mRateMap s.mIdealPeriod = some m)
    (hslope : 0 < m.slope) :
    ∃ p, nextAnticipatedVSyncTimeFromLocked s t = some p ∧ t ≤ p := by
  have hne' : s.mTimestamps.isEmpty = false := List.isEmpty_eq_false.mpr hne
  have key : t - (minTS s.mTimestamps + m.intercept) <
      (t - (minTS s.mTimestamps + m.intercept) + m.slope).tdiv m.slope * m.slope :=
    lt_tdiv_shift_mul hslope
  refine ⟨(t - (minTS s.mTimestamps + m.intercept) + m.slope).tdiv m.slope * m.slope
      + m.intercept + minTS s.mTimestamps, ?_, by omega⟩
  rw [nextAnticipated_warm_eq s t m hm hne', if_neg (by omega)]

/-- Witness for C1: the converged state `exWarm` (slope 10) predicts from
time point 5 a vsync no earlier than 5. -/
theorem nextAnticipated_not_before_timePoint_witness :
    ∃ p, nextAnticipatedVSyncTimeFromLocked exWarm 5 = some p ∧ 5 ≤ p :=
  nextAnticipated_not_before_timePoint exWarm 5 ⟨10, 0⟩ (by decide) (by decide) (by decide)

/-- Counterexample for C3: in the converged warm state `exWarm` (oldest
buffered timestamp 0, intercept 0, slope 10), the time point 20 is an exact
non-negative multiple of the slope away from the zero point `0`, yet the
prediction is 30 — one full period later than the 20 the claim requires
(the smallest ordinal `o` with `zero + o·slope ≥ 20` is 2, giving 20). -/
theorem warm_prediction_exact_multiple_counterexample :
    rateMapFind exWarm.mRateMap exWarm.mIdealPeriod = some ⟨10, 0⟩ ∧
    (0 : Int) < 10 ∧
    minTS exWarm.mTimestamps + (0 : Int) = 0 ∧
    (20 : Int) - 0 = 2 * 10 ∧
    nextAnticipatedVSyncTimeFromLocked exWarm 20 = some 30 ∧
    ¬ nextAnticipatedVSyncTimeFromLocked exWarm 20 = some 20 := by decide

/-- C3 (amended): on the warm path with `zero := oldest + intercept ≤
timePoint`, the prediction is `zero + ordinal·slope` where
`ordinal = (timePoint − zero)/slope + 1` (floor division) is the smallest
integer with `zero + ordinal·slope` strictly greater than `timePoint`; in
particular, when `timePoint − zero` is an exact non-negative multiple of the
slope, the prediction is `timePoint + slope`, one period later than the
`timePoint` the original claim states. -/
theorem warm_prediction_characterization (s : VSyncState) (t : Int) (m : Model)
    (hne : s.mTimestamps ≠ []) (hm : rateMapFind s.mRateMap s.mIdealPeriod = some m)
    (hslope : 0 < m.slope) (hd : minTS s.mTimestamps + m.intercept ≤ t) :
    nextAnticipatedVSyncTimeFromLocked s t =
      some ((minTS s.mTimestamps + m.intercept) +
        ((t - (minTS s.mTimestamps + m.intercept)) / m.slope + 1) * m.slope) ∧
    t < (minTS s.mTimestamps + m.intercept) +
        ((t - (minTS s.mTimestamps + m.intercept)) / m.slope + 1) * m.slope ∧
    (∀ k : Int, t < (minTS s.mTimestamps + m.intercept) + k * m.slope →
      (t - (minTS s.mTimestamps + m.intercept)) / m.slope + 1 ≤ k) ∧
    (m.slope ∣ (t - (minTS s.mTimestamps + m.intercept)) →
      nextAnticipatedVSyncTimeFromLocked s t = some (t + m.slope)) := by
  have hne' : s.mTimestamps.isEmpty = false := List.isEmpty_eq_false.mpr hne
  have key : t - (minTS s.mTimestamps + m.intercept) <
      (t - (minTS s.mTimestamps + m.intercept) + m.slope).tdiv m.slope * m.slope :=
    lt_tdiv_shift_mul hslope
  have hq : (t - (minTS s.mTimestamps + m.intercept) + m.slope).tdiv m.slope =
      (t - (minTS s.mTimestamps + m.intercept)) / m.slope + 1 := by
    rw [Int.tdiv_eq_ediv (by omega) hslope.le,
      show t - (minTS s.mTimestamps + m.intercept) + m.slope =
        t - (minTS s.mTimestamps + m.intercept) + 1 * m.slope by ring,
      Int.add_mul_ediv_right _ 1 (ne_of_gt hslope)]
  have hnext : nextAnticipatedVSyncTimeFromLocked s t =
      some ((minTS s.mTimestamps + m.intercept) +
        ((t - (minTS s.mTimestamps + m.intercept)) / m.slope + 1) * m.slope) := by
    rw [nextAnticipated_warm_eq s t m hm hne', if_neg (by omega)]
    rw [hq]; congr 1; ring
  have hstrict : t < (minTS s.mTimestamps + m.intercept) +
      ((t - (minTS s.mTimestamps + m.intercept)) / m.slope + 1) * m.slope := by
    have h1 := Int.lt_ediv_add_one_mul_self (t - (minTS s.mTimestamps + m.intercept)) hslope
    omega
  refine ⟨hnext, hstrict, ?_, ?_⟩
  · intro k hk
    have h1 : t - (minTS s.mTimestamps + m.intercept) ≤ k * m.slope - 1 := by omega
    have h2 := Int.ediv_le_ediv hslope h1
    have h3 : (k * m.slope - 1) / m.slope = k - 1 := by
      rw [show k * m.slope - 1 = (m.slope - 1) + (k - 1) * m.slope by ring,
        Int.add_mul_ediv_right _ _ (ne_of_gt hslope),
        Int.ediv_eq_zero_of_lt (by omega) (by omega)]
      ring
    omega
  · rintro ⟨c, hc⟩
    have hdiv : (t - (minTS s.mTimestamps + m.intercept)) / m.slope = c := by
      rw [hc]; exact Int.mul_ediv_cancel_left c (ne_of_gt hslope)
    rw [hnext, hdiv]
    congr 1
    have hct : t = minTS s.mTimestamps + m.intercept + m.slope * c := by omega
    rw [hct]; ring

/-- Witness for C3 (amended): `exWarm` at time point 25 (zero point 0)
predicts `0 + (25/10 + 1)·10 = 30`, the smallest strict upper vsync. -/
theorem warm_prediction_characterization_witness :
    nextAnticipatedVSyncTimeFromLocked exWarm 25 =
      some ((minTS exWarm.mTimestamps + (0 : Int)) +
        ((25 - (minTS exWarm.mTimestamps + (0 : Int))) / 10 + 1) * 10) ∧
    (25 : Int) < (minTS exWarm.mTimestamps + (0 : Int)) +
        ((25 - (minTS exWarm.mTimestamps + (0 : Int))) / 10 + 1) * 10 ∧
    (∀ k : Int, (25 : Int) < (minTS exWarm.mTimestamps + (0 : Int)) + k * 10 →
      (25 - (minTS exWarm.mTimestamps + (0 : Int))) / 10 + 1 ≤ k) ∧
    ((10 : Int) ∣ (25 - (minTS exWarm.mTimestamps + (0 : Int))) →
      nextAnticipatedVSyncTimeFromLocked exWarm 25 = some (25 + 10)) :=
  warm_prediction_characterization exWarm 25 ⟨10, 0⟩ (by decide) (by decide) (by decide)
    (by decide)

/-- Counterexample for C4: in `exHundred` (ideal period 100, tolerance 10,
last admitted timestamp 0) the timestamp 10 has residual percentage exactly
equal to the lower bound — not strictly between the bounds, so the claim
says it is accepted — yet the period-residual test rejects it (the code
compares with `>=` and `<=`). -/
theorem residual_bound_equality_counterexample :
    ((10 : Int) - exHundred.mTimestamps.getD exHundred.mLastTimestampIndex 0).tmod
        exHundred.mIdealPeriod * 100 =
      (exHundred.kOutlierTolerancePercent : Int) * exHundred.mIdealPeriod ∧
    ¬ specResidualStrictlyBetween exHundred 10 ∧
    residualReject exHundred 10 = true := by decide

/-- C4 (amended): with a positive ideal period and tolerance at least 1, the
period-residual test rejects iff the residual percentage lies in the
closed band `[tol, 100 − tol]` of the truncated integer percentage, i.e.
`tol·P ≤ 100·r < (101 − tol)·P` for the C++ remainder `r` — equality at a
bound is rejected, not accepted as the original claim states. -/
theorem residualReject_iff_closed_band (s : VSyncState) (ts : Int)
    (hP : 0 < s.mIdealPeriod) (htol : 1 ≤ s.kOutlierTolerancePercent) :
    residualReject s ts = true ↔
      ((s.kOutlierTolerancePercent : Int) * s.mIdealPeriod ≤
        ((ts - s.mTimestamps.getD s.mLastTimestampIndex 0).tmod s.mIdealPeriod) * 100 ∧
       ((ts - s.mTimestamps.getD s.mLastTimestampIndex 0).tmod s.mIdealPeriod) * 100 <
        (101 - (s.kOutlierTolerancePercent : Int)) * s.mIdealPeriod) := by
  have htol' : (1 : Int) ≤ (s.kOutlierTolerancePercent : Int) := by exact_mod_cast htol
  simp only [residualReject, decide_eq_true_eq]
  set r := (ts - s.mTimestamps.getD s.mLastTimestampIndex 0).tmod s.mIdealPeriod with hr
  by_cases hrpos : 0 ≤ r
  · have hx : 0 ≤ r * 100 := by omega
    rw [Int.tdiv_eq_ediv hx hP.le]
    have h1 : ((s.kOutlierTolerancePercent : Int) ≤ r * 100 / s.mIdealPeriod) ↔
        (s.kOutlierTolerancePercent : Int) * s.mIdealPeriod ≤ r * 100 :=
      Int.le_ediv_iff_mul_le hP
    have h2 : (r * 100 / s.mIdealPeriod < 101 - (s.kOutlierTolerancePercent : Int)) ↔
        r * 100 < (101 - (s.kOutlierTolerancePercent : Int)) * s.mIdealPeriod :=
      Int.ediv_lt_iff_lt_mul hP
    omega
  · have hx : r * 100 ≤ 0 := by omega
    have hperc : (r * 100).tdiv s.mIdealPeriod ≤ 0 := tdiv_nonpos_of_nonpos hx hP.le
    have hmul : (1 : Int) * s.mIdealPeriod ≤
        (s.kOutlierTolerancePercent : Int) * s.mIdealPeriod :=
      mul_le_mul_of_nonneg_right htol' hP.le
    omega

/-- Witness for C4 (amended): `exHundred` at timestamp 55 (residual 55%,
inside the closed band). -/
theorem residualReject_iff_closed_band_witness :
    residualReject exHundred 55 = true ↔
      ((exHundred.kOutlierTolerancePercent : Int) * exHundred.mIdealPeriod ≤
        ((55 - exHundred.mTimestamps.getD exHundred.mLastTimestampIndex 0).tmod
          exHundred.mIdealPeriod) * 100 ∧
       ((55 - exHundred.mTimestamps.getD exHundred.mLastTimestampIndex 0).tmod
          exHundred.mIdealPeriod) * 100 <
        (101 - (exHundred.kOutlierTolerancePercent : Int)) * exHundred.mIdealPeriod) :=
  residualReject_iff_closed_band exHundred 55 (by decide) (by decide)

/-- Counterexample for C10: with tolerance 0 (`exZeroTol`, ideal period 1000,
last admitted timestamp 100) the strictly earlier timestamp 99 is rejected by
the period-residual test (the truncated percentage of its negative residual
is 0, which lies in the closed band `[0, 100]`), contradicting the claim
that out-of-order timestamps always pass that test. -/
theorem zero_tolerance_out_of_order_counterexample :
    (99 : Int) < exZeroTol.mTimestamps.getD exZeroTol.mLastTimestampIndex 0 ∧
    residualReject exZeroTol 99 = true := by decide

/-- C10 (amended): with a positive ideal period and tolerance at least 1, a
timestamp strictly earlier than the last admitted one always passes the
period-residual test (the C++ remainder of the negative difference is
non-positive, so its truncated percentage is below the tolerance); such a
timestamp can therefore be rejected only by the nearest-neighbor duplicate
test. -/
theorem earlier_timestamp_passes_residual (s : VSyncState) (ts : Int)
    (hP : 0 < s.mIdealPeriod) (htol : 1 ≤ s.kOutlierTolerancePercent)
    (hne : s.mTimestamps ≠ [])
    (hlt : ts < s.mTimestamps.getD s.mLastTimestampIndex 0) :
    residualReject s ts = false ∧
    (validate s ts = false → duplicateReject s ts = true) := by
  have htol' : (1 : Int) ≤ (s.kOutlierTolerancePercent : Int) := by exact_mod_cast htol
  have hr : (ts - s.mTimestamps.getD s.mLastTimestampIndex 0).tmod s.mIdealPeriod ≤ 0 :=
    tmod_nonpos_of_nonpos _ (by omega) _
  have hrr : residualReject s ts = false := by
    simp only [residualReject, decide_eq_false_iff_not, not_and, not_le]
    intro h1
    have hx : (ts - s.mTimestamps.getD s.mLastTimestampIndex 0).tmod s.mIdealPeriod * 100 ≤ 0 :=
      by omega
    have hperc := tdiv_nonpos_of_nonpos hx hP.le
    omega
  refine ⟨hrr, fun hval => ?_⟩
  rw [validate, List.isEmpty_eq_false.mpr hne, hrr] at hval
  simp only [Bool.false_eq_true, if_false] at hval
  cases hdup : duplicateReject s ts
  · rw [hdup] at hval
    simp at hval
  · rfl

/-- Witness for C10 (amended): `exHundred` with the out-of-order timestamp
`-50`. -/
theorem earlier_timestamp_passes_residual_witness :
    residualReject exHundred (-50) = false ∧
    (validate exHundred (-50) = false → duplicateReject exHundred (-50) = true) :=
  earlier_timestamp_passes_residual exHundred (-50) (by decide) (by decide) (by decide)
    (by decide)

/-- C6: when a validated sample brings the buffer to at least the minimum and
the fit degenerates (`bottom = 0`) or diverges (truncated divergence
percentage at least the tolerance), `addVsyncTimestamp` resets the active
period's model to the trivial `{idealPeriod, 0}`, clears the timestamp
buffer, and returns `false`. -/
theorem addVsyncTimestamp_fit_failure (s : VSyncState) (ts : Int)
    (hv : validate s ts = true)
    (hmin : s.kMinimumSamplesForPrediction ≤ (insertTimestamp s ts).mTimestamps.length)
    (hfail : (fitOf (insertTimestamp s ts)).bottom = 0 ∨
      (((insertTimestamp s ts).kOutlierTolerancePercent : Int) ≤
        divergencePercent (insertTimestamp s ts).mIdealPeriod
          (fitOf (insertTimestamp s ts)).anticipatedPeriod)) :
    (addVsyncTimestamp s ts).1 = false ∧
    (addVsyncTimestamp s ts).2.mTimestamps = [] ∧
    rateMapFind (addVsyncTimestamp s ts).2.mRateMap s.mIdealPeriod =
      some ⟨s.mIdealPeriod, 0⟩ := by
  have hv' : ¬ validate s ts = false := by rw [hv]; decide
  have hlt' : ¬ ((insertTimestamp s ts).mTimestamps.length <
      (insertTimestamp s ts).kMinimumSamplesForPrediction) := by
    rw [insertTimestamp_kMinimum]; omega
  have hconc : rateMapFind (rateMapSet (insertTimestamp s ts).mRateMap
      (insertTimestamp s ts).mIdealPeriod
      ⟨(insertTimestamp s ts).mIdealPeriod, 0⟩) s.mIdealPeriod = some ⟨s.mIdealPeriod, 0⟩ := by
    rw [insertTimestamp_mIdealPeriod]
    exact rateMapFind_set_self _ _ _
  simp only [addVsyncTimestamp, if_neg hv', if_neg hlt']
  rcases hfail with hb | hdiv
  · rw [if_pos hb]
    refine ⟨rfl, clearTimestamps_mTimestamps _, ?_⟩
    rw [clearTimestamps_mRateMap]
    exact hconc
  · by_cases hb : (fitOf (insertTimestamp s ts)).bottom = 0
    · rw [if_pos hb]
      refine ⟨rfl, clearTimestamps_mTimestamps _, ?_⟩
      rw [clearTimestamps_mRateMap]
      exact hconc
    · rw [if_neg hb, if_pos hdiv]
      refine ⟨rfl, clearTimestamps_mTimestamps _, ?_⟩
      rw [clearTimestamps_mRateMap]
      exact hconc

/-- Witness for C6: a predictor constructed with minimum 1 receives its first
sample; the single-bucket fit has `bottom = 0`, so the model resets to
trivial, the buffer is cleared and `false` is returned. -/
theorem addVsyncTimestamp_fit_failure_witness :
    (addVsyncTimestamp (construct 100 10 1 10) 5).1 = false ∧
    (addVsyncTimestamp (construct 100 10 1 10) 5).2.mTimestamps = [] ∧
    rateMapFind (addVsyncTimestamp (construct 100 10 1 10) 5).2.mRateMap
        (construct 100 10 1 10).mIdealPeriod =
      some ⟨(construct 100 10 1 10).mIdealPeriod, 0⟩ :=
  addVsyncTimestamp_fit_failure (construct 100 10 1 10) 5 (by decide) (by decide)
    (Or.inl (by decide))

theorem rateMapFind_tail_of_none (l : RateMap) (k : Int) (h : rateMapFind l k = none) :
    rateMapFind l.tail k = none := by
  cases l with
  | nil => rfl
  | cons e l =>
    simp only [rateMapFind] at h
    split at h
    · cases h
    · exact h

theorem setPeriod_mRateMap_of_fresh (s : VSyncState) (p : Int)
    (h : rateMapFind s.mRateMap p = none) :
    (setPeriod s p).mRateMap =
      (if s.mRateMap.length = kSizeLimit then s.mRateMap.tail else s.mRateMap)
        ++ [(p, ⟨p, 0⟩)] := by
  have h0 : rateMapFind
      (if s.mRateMap.length = kSizeLimit then s.mRateMap.tail else s.mRateMap) p = none := by
    split
    · exact rateMapFind_tail_of_none _ _ h
    · exact h
  simp only [setPeriod, clearTimestamps_mRateMap, h0]
  rfl

theorem applyPeriods_keys : ∀ (ps : List Int) (s : VSyncState),
    ps.Nodup → (∀ p ∈ ps, rateMapFind s.mRateMap p = none) →
    s.mRateMap.length ≤ kSizeLimit →
    (applyPeriods s ps).mRateMap.map Prod.fst =
      (s.mRateMap.map Prod.fst ++ ps).drop (s.mRateMap.length + ps.length - kSizeLimit) := by
  intro ps
  induction ps with
  | nil =>
    intro s _ _ hlen
    have hks : kSizeLimit = 30 := rfl
    rw [hks] at hlen
    have hz : s.mRateMap.length - kSizeLimit = 0 := by rw [hks]; omega
    simp [applyPeriods, hz]
  | cons p rest ih =>
    intro s hnd hfresh hlen
    have hks : kSizeLimit = 30 := rfl
    have hp : rateMapFind s.mRateMap p = none := hfresh p (List.mem_cons_self p rest)
    have hrm := setPeriod_mRateMap_of_fresh s p hp
    have hstep : applyPeriods s (p :: rest) = applyPeriods (setPeriod s p) rest := rfl
    have hnd' : rest.Nodup := (List.nodup_cons.mp hnd).2
    have hpnotin : p ∉ rest := (List.nodup_cons.mp hnd).1
    have hfresh' : ∀ q ∈ rest, rateMapFind (setPeriod s p).mRateMap q = none := by
      intro q hq
      rw [rateMapFind_eq_none_iff, hrm, List.map_append]
      simp only [List.mem_append, List.map_cons, List.map_nil, List.mem_singleton]
      rintro (hq1 | hq2)
      · have hq3 : q ∈ s.mRateMap.map Prod.fst := by
          revert hq1
          split
          · intro hq1
            exact (List.tail_sublist s.mRateMap).map Prod.fst |>.mem hq1
          · exact id
        exact (rateMapFind_eq_none_iff _ _).mp (hfresh q (List.mem_cons_of_mem p hq)) hq3
      · exact hpnotin (hq2 ▸ hq)
    by_cases h30 : s.mRateMap.length = kSizeLimit
    · obtain ⟨e, l, hm⟩ : ∃ e l, s.mRateMap = e :: l := by
        cases hc : s.mRateMap with
        | nil => rw [hc] at h30; simp [hks] at h30
        | cons e l => exact ⟨e, l, rfl⟩
      have hlen' : (setPeriod s p).mRateMap.length ≤ kSizeLimit := by
        rw [hrm, if_pos h30, List.length_append, List.length_tail, h30, hks]
        simp only [List.length_cons, List.length_nil]
        omega
      have hih := ih (setPeriod s p) hnd' hfresh' hlen'
      rw [hstep, hih, hrm, if_pos h30, hm]
      have hlen30 : (e :: l).length = 30 := by rw [← hm, h30, hks]
      have hl29 : l.length = 29 := by
        simp only [List.length_cons] at hlen30
        omega
      have hc1 : ((e :: l).tail ++ [(p, (⟨p, 0⟩ : Model))]).length + rest.length - kSizeLimit
          = rest.length := by
        simp only [List.tail_cons, List.length_append, List.length_cons, List.length_nil]
        rw [hks]
        omega
      have hc2 : (e :: l).length + (p :: rest).length - kSizeLimit = rest.length + 1 := by
        rw [hlen30, hks]
        simp only [List.length_cons]
        omega
      rw [hc1, hc2]
      simp only [List.tail_cons, List.map_append, List.map_cons, List.map_nil,
        List.cons_append, List.drop_succ_cons, List.append_assoc, List.singleton_append,
        List.nil_append]
    · have hlen' : (setPeriod s p).mRateMap.length ≤ kSizeLimit := by
        rw [hrm, if_neg h30, List.length_append]
        simp only [List.length_cons, List.length_nil]
        rw [hks] at hlen h30 ⊢
        omega
      have hih := ih (setPeriod s p) hnd' hfresh' hlen'
      rw [hstep, hih, hrm, if_neg h30]
      have hc1 : (s.mRateMap ++ [(p, (⟨p, 0⟩ : Model))]).length + rest.length - kSizeLimit
          = s.mRateMap.length + (p :: rest).length - kSizeLimit := by
        simp only [List.length_append, List.length_cons, List.length_nil]
        omega
      rw [hc1]
      simp only [List.map_append, List.map_cons, List.map_nil, List.append_assoc,
        List.singleton_append, List.nil_append]

theorem setPeriod_mRateMap (s : VSyncState) (p : Int) :
    (setPeriod s p).mRateMap =
      (if (rateMapFind (if s.mRateMap.length = kSizeLimit then s.mRateMap.tail
            else s.mRateMap) p).isSome
       then (if s.mRateMap.length = kSizeLimit then s.mRateMap.tail else s.mRateMap)
       else (if s.mRateMap.length = kSizeLimit then s.mRateMap.tail else s.mRateMap)
         ++ [(p, ⟨p, 0⟩)]) := by
  simp only [setPeriod, clearTimestamps_mRateMap]

theorem setPeriod_mIdealPeriod (s : VSyncState) (p : Int) :
    (setPeriod s p).mIdealPeriod = p := by
  simp only [setPeriod, clearTimestamps_mIdealPeriod]

theorem resetModel_mRateMap (s : VSyncState) :
    (resetModel s).mRateMap = rateMapSet s.mRateMap s.mIdealPeriod ⟨s.mIdealPeriod, 0⟩ := by
  simp only [resetModel, clearTimestamps_mRateMap]

theorem resetModel_mIdealPeriod (s : VSyncState) :
    (resetModel s).mIdealPeriod = s.mIdealPeriod := by
  simp only [resetModel, clearTimestamps_mIdealPeriod]

/-- C2: when the rate map is at capacity, `setPeriod` drops the
insertion-oldest entry before appending the trivial entry of a fresh period
(first conjunct); consequently, starting from a fresh instance, after 31
`setPeriod` calls with pairwise-distinct periods all different from the
construction period, the entry created for the construction period is gone
(second conjunct).  The insertion order of the rate map is modelled from the
spec, as the container lives in the header outside the examined sources. -/
theorem setPeriod_evicts_insertion_oldest (p0 : Int) (hs ms tol : Nat) (ps : List Int)
    (hnd : ps.Nodup) (hlen : ps.length = 31) (hp0 : p0 ∉ ps) :
    (∀ s2 : VSyncState, ∀ p : Int, s2.mRateMap.length = kSizeLimit →
      rateMapFind s2.mRateMap p = none →
      (setPeriod s2 p).mRateMap = s2.mRateMap.tail ++ [(p, ⟨p, 0⟩)]) ∧
    rateMapFind (applyPeriods (construct p0 hs ms tol) ps).mRateMap p0 = none := by
  constructor
  · intro s2 p h30 hfresh
    rw [setPeriod_mRateMap_of_fresh s2 p hfresh, if_pos h30]
  · have hcon : (construct p0 hs ms tol).mRateMap = [(p0, ⟨p0, 0⟩)] := rfl
    have hfresh : ∀ p ∈ ps, rateMapFind (construct p0 hs ms tol).mRateMap p = none := by
      intro p hp
      rw [hcon]
      simp only [rateMapFind]
      rw [if_neg (fun he : p0 = p => hp0 (he ▸ hp))]
    have hlen1 : (construct p0 hs ms tol).mRateMap.length ≤ kSizeLimit := by
      rw [hcon]
      show (1 : Nat) ≤ kSizeLimit
      decide
    have hkeys := applyPeriods_keys ps (construct p0 hs ms tol) hnd hfresh hlen1
    have hdrop : ((([(p0, (⟨p0, 0⟩ : Model))] : RateMap).map Prod.fst) ++ ps).drop
        (([(p0, (⟨p0, 0⟩ : Model))] : RateMap).length + ps.length - kSizeLimit) =
        ps.drop 1 := by
      rw [hlen]
      rfl
    rw [rateMapFind_eq_none_iff, hkeys, hcon, hdrop]
    intro hmem
    exact hp0 (List.mem_of_mem_drop hmem)

/-- Witness for C2: from a fresh instance with construction period 0, the 31
distinct periods 1..31 leave no entry for period 0. -/
theorem setPeriod_evicts_insertion_oldest_witness :
    (∀ s2 : VSyncState, ∀ p : Int, s2.mRateMap.length = kSizeLimit →
      rateMapFind s2.mRateMap p = none →
      (setPeriod s2 p).mRateMap = s2.mRateMap.tail ++ [(p, ⟨p, 0⟩)]) ∧
    rateMapFind (applyPeriods (construct 0 5 5 10)
      [1, 2, 3, 4, 5, 6, 7, 8, 9, 10, 11, 12, 13, 14, 15, 16, 17, 18, 19, 20, 21, 22,
       23, 24, 25, 26, 27, 28, 29, 30, 31]).mRateMap 0 = none :=
  setPeriod_evicts_insertion_oldest 0 5 5 10
    [1, 2, 3, 4, 5, 6, 7, 8, 9, 10, 11, 12, 13, 14, 15, 16, 17, 18, 19, 20, 21, 22,
     23, 24, 25, 26, 27, 28, 29, 30, 31] (by decide) (by decide) (by decide)

/-- C8: the rate-map invariant — at most `kSizeLimit` entries, and an entry
for the active ideal period — holds after construction and is preserved by
`addVsyncTimestamp`, `setPeriod` and `resetModel` (the query operations do
not produce a state in the embedding, so there is nothing for them to
preserve). -/
theorem rateMap_invariant (p0 : Int) (hs ms tol : Nat) (s : VSyncState) (ts p : Int)
    (hinv : RateMapInv s) :
    RateMapInv (construct p0 hs ms tol) ∧
    RateMapInv (addVsyncTimestamp s ts).2 ∧
    RateMapInv (setPeriod s p) ∧
    RateMapInv (resetModel s) := by
  obtain ⟨hlen, hsome⟩ := hinv
  have hks : kSizeLimit = 30 := rfl
  simp only [RateMapInv]
  refine ⟨⟨?_, ?_⟩, ?_, ⟨?_, ?_⟩, ⟨?_, ?_⟩⟩
  · show (1 : Nat) ≤ kSizeLimit
    decide
  · show (rateMapFind ([(p0, (⟨p0, 0⟩ : Model))] : RateMap) p0).isSome = true
    simp only [rateMapFind, if_pos rfl]
    rfl
  · -- addVsyncTimestamp
    by_cases hv : validate s ts = false
    · simp only [addVsyncTimestamp, if_pos hv]
      split
      · exact ⟨by rw [clearTimestamps_mRateMap]; exact hlen,
          by rw [clearTimestamps_mRateMap, clearTimestamps_mIdealPeriod]; exact hsome⟩
      · split
        · exact ⟨hlen, hsome⟩
        · exact ⟨hlen, hsome⟩
    · simp only [addVsyncTimestamp, if_neg hv]
      have hbase : ∀ v : Model,
          (rateMapSet (insertTimestamp s ts).mRateMap
            (insertTimestamp s ts).mIdealPeriod v).length ≤ kSizeLimit ∧
          (rateMapFind (rateMapSet (insertTimestamp s ts).mRateMap
            (insertTimestamp s ts).mIdealPeriod v)
            (insertTimestamp s ts).mIdealPeriod).isSome = true := by
        intro v
        constructor
        · rw [insertTimestamp_mRateMap, insertTimestamp_mIdealPeriod,
            rateMapSet_length _ _ _ hsome]
          exact hlen
        · rw [rateMapFind_set_self]
          rfl
      split
      · exact ⟨(hbase _).1, (hbase _).2⟩
      · split
        · exact ⟨by rw [clearTimestamps_mRateMap]; exact (hbase _).1,
            by rw [clearTimestamps_mRateMap, clearTimestamps_mIdealPeriod];
               exact (hbase _).2⟩
        · split
          · exact ⟨by rw [clearTimestamps_mRateMap]; exact (hbase _).1,
              by rw [clearTimestamps_mRateMap, clearTimestamps_mIdealPeriod];
                 exact (hbase _).2⟩
          · exact ⟨(hbase _).1, (hbase _).2⟩
  · -- setPeriod length
    rw [setPeriod_mRateMap]
    rw [hks] at hlen ⊢
    split
    · next h30 =>
      split
      · rw [List.length_tail]
        omega
      · rw [List.length_append, List.length_tail]
        simp only [List.length_cons, List.length_nil]
        omega
    · next h30 =>
      split
      · omega
      · rw [List.length_append]
        simp only [List.length_cons, List.length_nil]
        omega
  · -- setPeriod find
    rw [setPeriod_mIdealPeriod, setPeriod_mRateMap]
    split
    all_goals
      split
      · next hf => exact hf
      · next hf =>
        have hnone := Option.not_isSome_iff_eq_none.mp hf
        rw [rateMapFind_append_of_none _ _ _ hnone]
        simp only [rateMapFind, if_pos rfl]
        rfl
  · rw [resetModel_mRateMap, rateMapSet_length _ _ _ hsome]
    exact hlen
  · rw [resetModel_mIdealPeriod, resetModel_mRateMap, rateMapFind_set_self]
    rfl

/-- Witness for C8: the invariant holds for `exHundred` and is carried
through one step of each operation. -/
theorem rateMap_invariant_witness :
    RateMapInv (construct 0 5 5 10) ∧
    RateMapInv (addVsyncTimestamp exHundred 7).2 ∧
    RateMapInv (setPeriod exHundred 50) ∧
    RateMapInv (resetModel exHundred) :=
  rateMap_invariant 0 5 5 10 exHundred 7 50 (by decide)

end VSyncPredictor
